import Mathlib

/-!
Shallow embedding of the Lobby/Grants subsystem of the VirtualME backend
(`server.js`): the `grants` collection (canonical relationship store), the
per-user `lobby` sub-document (invitation ledger), and the HTTP handlers
`/lobby/invite`, `/lobby/accept`, `/lobby/reject`, `/lobby/revoke`,
`/lobby/revoke-by-guest`, `/lobby/summary` and `/acl/can-act-as`.

Mongo documents are modelled as Lean structures; collections as lists in
insertion order.  `findOne` is `List.find?` (first match), `updateOne` updates
the first matching element, `updateMany` all matching elements, `insertOne`
appends.  Mongo `ObjectId` values are modelled by their canonical lowercase
24-character hex string; the JS helper `objId` (which returns `null` for a
string the `ObjectId` constructor rejects) becomes an `Option`-returning
function.  A query field compared against a `null` `ObjectId` matches no
stored document (every stored id is a real `ObjectId`), which the embedding
reflects by comparing `Option` values.

Handlers take the authenticated caller id (`req.userId`) as a plain string:
the `401` guard for a missing identity lives in `authMiddleware`, outside the
logic under verification, and every claim quantifies over authenticated
callers only.  JS optional request-body strings are passed as plain strings
with `""` for the falsy/absent case, matching JS truthiness tests like
`if (!inviteCode)`.
-/

deriving instance DecidableEq for Except

namespace VirtualMe

/-- Status values stored on grants documents and on ledger entries. -/
inductive GStatus
  | pending
  | active
  | revoked
deriving DecidableEq

/-- A document of the `grants` collection (canonical Relationship store):
`{ ownerId, guestId, status, inviteCode?, createdAt?, updatedAt? }`.
Timestamps are abstract `Nat` instants; they are optional because a Mongo
upsert-insert materializes only the query keys and the `$set` fields. -/
structure Grant where
  ownerId : String
  guestId : String
  status : GStatus
  inviteCode : Option String
  createdAt : Option Nat
  updatedAt : Option Nat
deriving DecidableEq

/-- An element of `user.lobby.invites`:
`{ email, inviteCode, status, createdAt }`. -/
structure Invite where
  email : String
  inviteCode : String
  status : GStatus
  createdAt : Nat
deriving DecidableEq

/-- The guest snapshot embedded in a `lobby.granted` entry. -/
structure GuestSnap where
  id : String
  email : String
  name : Option String
  picture : Option String
deriving DecidableEq

/-- An element of `user.lobby.granted`.  `grantId` is the legacy field name
still read by `/lobby/summary` (`g.id || g.grantId`) and `/lobby/revoke`
(`$or: [{id}, {grantId}]`); `status` may be absent on legacy entries
(`g.status || 'active'`). -/
structure GrantedEntry where
  id : Option String
  grantId : Option String
  status : Option GStatus
  inviteCode : Option String
  createdAt : Option Nat
  updatedAt : Option Nat
  lastUsedAt : Option Nat
  guest : GuestSnap
deriving DecidableEq

/-- A document of the `users` collection, restricted to the fields the lobby
subsystem reads: `_id` (canonical hex string), `email`, public profile
fields, and the embedded `lobby` ledger. -/
structure User where
  id : String
  email : String
  name : Option String
  picture : Option String
  invites : List Invite
  granted : List GrantedEntry
deriving DecidableEq

/-- The database state the lobby subsystem touches. -/
structure DBState where
  users : List User
  grants : List Grant
deriving DecidableEq

/-- JS `String.prototype.trim()`: strip leading and trailing whitespace.
Modelled over the character list so that it is kernel-computable. -/
def jsTrim (s : String) : String :=
  ⟨((s.data.dropWhile Char.isWhitespace).reverse.dropWhile Char.isWhitespace).reverse⟩

/-- JS `String.prototype.toLowerCase()` (ASCII range, which covers every
string this subsystem lowercases: emails and hex ids). -/
def jsToLower (s : String) : String :=
  ⟨s.data.map Char.toLower⟩

/-- JS `String.prototype.startsWith(pre)`. -/
def jsStartsWith (pre s : String) : Bool :=
  pre.data.isPrefixOf s.data

/-- Worker for `jsSplitMinus`: split a character list at a separator,
keeping empty segments, as JS `split` with a single-character separator. -/
def splitCharAux (sep : Char) : List Char → List Char → List String
  | [], acc => [⟨acc.reverse⟩]
  | c :: cs, acc =>
    if c == sep then (⟨acc.reverse⟩ : String) :: splitCharAux sep cs []
    else splitCharAux sep cs (c :: acc)

/-- JS `String.prototype.split('-')`. -/
def jsSplitMinus (s : String) : List String :=
  splitCharAux '-' s.data []

/-- Hex digit test for `ObjectId` validity. -/
def isHexDigit (c : Char) : Bool :=
  c.isDigit || ('a' ≤ c && c ≤ 'f') || ('A' ≤ c && c ≤ 'F')

/-- A string the `ObjectId` constructor accepts: 24 hex characters. -/
def isValidObjectId (s : String) : Bool :=
  s.data.length == 24 && s.data.all isHexDigit

/-- JS `objId(id) { try { return new ObjectId(id); } catch { return null; } }`,
with `ObjectId` values canonicalized to their lowercase hex string. -/
def objId (s : String) : Option String :=
  if isValidObjectId s then some (jsToLower s) else none

/-- `updateOne` on the `grants` collection: rewrite the first document
matching the filter. -/
def updateFirst (p : Grant → Bool) (f : Grant → Grant) : List Grant → List Grant
  | [] => []
  | g :: gs => if p g then f g :: gs else g :: updateFirst p f gs

/-- `updateMany` on the `grants` collection: rewrite every document matching
the filter. -/
def updateWhere (p : Grant → Bool) (f : Grant → Grant) (l : List Grant) : List Grant :=
  l.map fun g => if p g then f g else g

/-- `Users.updateOne({_id: uid}, ...)`: rewrite the first user document with
the given id. -/
def updateUser (uid : String) (f : User → User) : List User → List User
  | [] => []
  | u :: us => if u.id == uid then f u :: us else u :: updateUser uid f us

/-- Response of `GET /acl/can-act-as`: HTTP status plus the JSON body
`{ allowed, reason }`. -/
structure AclResult where
  httpStatus : Nat
  allowed : Bool
  reason : String
deriving DecidableEq

/-- The `grants` query of `/acl/can-act-as`:
`{ ownerId: objId(target), guestId: objId(me), status: 'active' }`. -/
def aclGrantMatch (target me : String) (g : Grant) : Bool :=
  objId target == some g.ownerId && objId me == some g.guestId
    && g.status == GStatus.active

/-- `GET /acl/can-act-as?target=...` for an authenticated caller `me`
(`req.userId`).  Mirrors the handler: trim the raw target, `400` when empty,
`allowed/self` when it equals the caller id, otherwise allowed exactly when
an active grants document matches `(objId target, objId me)`. -/
def canActAs (me : String) (targetRaw : String) (grants : List Grant) : AclResult :=
  let target := jsTrim targetRaw
  if target = "" then ⟨400, false, "missing target"⟩
  else if me = target then ⟨200, true, "self"⟩
  else
    match grants.find? (aclGrantMatch target me) with
    | some _ => ⟨200, true, "grant"⟩
    | none => ⟨403, false, "no-grant"⟩

/-- Error responses of the lobby handlers (the caller-identity guard `401
unauthorized` lives upstream in `authMiddleware`). -/
inductive LobbyError
  | invalidCode
  | missingArg
  | guestNotFound
  | inviteNotFound
deriving DecidableEq

/-- HTTP status of each lobby error response. -/
def LobbyError.httpStatus : LobbyError → Nat
  | .invalidCode => 400
  | .missingArg => 400
  | .guestNotFound => 404
  | .inviteNotFound => 404

/-- The grants mirror of `/lobby/invite`: `findOne` on `(ownerId, guestId)`,
then either update that document to `pending` with the fresh code, or insert
a new pending document. -/
def mirrorPendingGrant (ownerId guestId code : String) (now : Nat)
    (grants : List Grant) : List Grant :=
  match grants.find? (fun g => g.ownerId == ownerId && g.guestId == guestId) with
  | some _ =>
    updateFirst (fun g => g.ownerId == ownerId && g.guestId == guestId)
      (fun g => { g with
        status := GStatus.pending, inviteCode := some code,
        updatedAt := some now }) grants
  | none =>
    grants ++ [⟨ownerId, guestId, GStatus.pending, some code, some now, some now⟩]

/-- `POST /lobby/invite` for authenticated owner `ownerId` (a canonical id:
`new ObjectId(req.userId)` succeeds for every session uid).  `code` stands
for the freshly generated random `genInviteCode()` value and `now` for the
current time, both passed in as parameters.  Pulls any pending invite for
the normalized email, pushes the new one, then mirrors a grants document if
a user account with that email exists. -/
def lobbyInvite (ownerId email code : String) (now : Nat) (s : DBState) : DBState :=
  let em := jsTrim (jsToLower email)
  let users1 := updateUser ownerId
    (fun u => { u with invites :=
      (u.invites.filter fun i => !(i.email == em && i.status == GStatus.pending))
        ++ [⟨em, code, GStatus.pending, now⟩] }) s.users
  let grants1 :=
    match users1.find? (fun u => u.email == em) with
    | none => s.grants
    | some guest => mirrorPendingGrant ownerId guest.id code now s.grants
  { users := users1, grants := grants1 }

/-- Does this user's ledger hold a pending invite with this code?
(`'lobby.invites': { $elemMatch: { inviteCode, status: 'pending' } }`). -/
def hasPendingInvite (code : String) (u : User) : Bool :=
  u.invites.any fun i => i.inviteCode == code && i.status == GStatus.pending

/-- The grant id minted by `/lobby/accept`:
`` `grant_${owner._id}_${guest._id}_${Date.now()}` ``. -/
def mkGrantId (ownerId guestId : String) (now : Nat) : String :=
  "grant_" ++ ownerId ++ "_" ++ guestId ++ "_" ++ toString now

/-- The ledger entry pushed onto `owner.lobby.granted` by `/lobby/accept`. -/
def mkGrantedEntry (gid : String) (guest : User) (now : Nat) : GrantedEntry :=
  { id := some gid, grantId := none, status := some GStatus.active,
    inviteCode := none, createdAt := some now, updatedAt := some now,
    lastUsedAt := none,
    guest := ⟨guest.id, guest.email, guest.name, guest.picture⟩ }

/-- Owner resolution of `/lobby/accept`: the embedded-invite path first, then
the `GRANT-<ownerId>-<guestId>` fallback against pending grants documents. -/
def acceptResolveOwner (inviteCode : String) (guest : User) (s : DBState) : Option User :=
  match s.users.find? (hasPendingInvite inviteCode) with
  | some o => some o
  | none =>
    if jsStartsWith "GRANT-" inviteCode then
      match jsSplitMinus inviteCode with
      | [_, osRaw, gsRaw] =>
        match objId osRaw, objId gsRaw with
        | some oid, some gid =>
          if gid == guest.id then
            match s.grants.find? (fun g =>
                g.ownerId == oid && g.guestId == gid && g.status == GStatus.pending) with
            | some _ => s.users.find? (fun u => u.id == oid)
            | none => none
          else none
        | _, _ => none
      | _ => none
    else none

/-- The grants upsert of `/lobby/accept`:
`Grants.updateOne({ownerId, guestId}, {$set: {status: 'active', inviteCode:
null, updatedAt}}, {upsert: true})` — update the first matching document, or
insert one carrying exactly the query keys and the `$set` fields. -/
def upsertActiveGrant (ownerId guestId : String) (now : Nat)
    (grants : List Grant) : List Grant :=
  match grants.find? (fun g => g.ownerId == ownerId && g.guestId == guestId) with
  | some _ =>
    updateFirst (fun g => g.ownerId == ownerId && g.guestId == guestId)
      (fun g => { g with
        status := GStatus.active, inviteCode := none,
        updatedAt := some now }) grants
  | none =>
    grants ++ [⟨ownerId, guestId, GStatus.active, none, none, some now⟩]

/-- `POST /lobby/accept` for authenticated caller `callerId`.  Returns the
response (`grantId` on success) together with the resulting state; every
error return happens before any write, so the paired state is unchanged. -/
def lobbyAccept (callerId inviteCode : String) (now : Nat) (s : DBState) :
    Except LobbyError String × DBState :=
  if inviteCode = "" then (.error .invalidCode, s)
  else
    match s.users.find? (fun u => some u.id == objId callerId) with
    | none => (.error .guestNotFound, s)
    | some guest =>
      match acceptResolveOwner inviteCode guest s with
      | none => (.error .inviteNotFound, s)
      | some owner =>
        let gid := mkGrantId owner.id guest.id now
        let users1 := updateUser owner.id
          (fun u => { u with invites := u.invites.filter fun i => !(i.inviteCode == inviteCode) })
          s.users
        let users2 := updateUser owner.id
          (fun u => { u with granted := u.granted ++ [mkGrantedEntry gid guest now] })
          users1
        (.ok gid, { users := users2, grants := upsertActiveGrant owner.id guest.id now s.grants })

/-- `POST /lobby/reject` for authenticated caller `callerId`: owner-ledger
path first (pull the invite, revoke the owner's matching pending grants),
otherwise the grants fallback keyed on `(guestId, inviteCode, pending)`. -/
def lobbyReject (callerId inviteCode : String) (now : Nat) (s : DBState) :
    Except LobbyError Unit × DBState :=
  if inviteCode = "" then (.error .invalidCode, s)
  else
    match s.users.find? (hasPendingInvite inviteCode) with
    | some owner =>
      let users1 := updateUser owner.id
        (fun u => { u with invites := u.invites.filter fun i => !(i.inviteCode == inviteCode) })
        s.users
      let grants1 := updateWhere
        (fun g => g.ownerId == owner.id && g.status == GStatus.pending
          && g.inviteCode == some inviteCode)
        (fun g => { g with status := GStatus.revoked, updatedAt := some now }) s.grants
      (.ok (), { users := users1, grants := grants1 })
    | none =>
      match s.grants.find? (fun g => some g.guestId == objId callerId
          && g.inviteCode == some inviteCode && g.status == GStatus.pending) with
      | none => (.error .inviteNotFound, s)
      | some pend =>
        let grants1 := updateFirst
          (fun g => some g.guestId == objId callerId
            && g.inviteCode == some inviteCode && g.status == GStatus.pending)
          (fun g => { g with status := GStatus.revoked, updatedAt := some now }) s.grants
        let users1 := updateUser pend.ownerId
          (fun u => { u with invites := u.invites.filter fun i => !(i.inviteCode == inviteCode) })
          s.users
        (.ok (), { users := users1, grants := grants1 })

/-- `POST /lobby/revoke` for authenticated owner `ownerId`.  The body fields
`inviteCode`/`grantId` are plain strings with `""` for the absent (falsy)
case, matching the handler's truthiness branching.  The `inviteCode` branch
pulls matching ledger invites and revokes the owner's grants carrying that
code; the `grantId` branch pulls matching ledger `granted` entries and
revokes every active grants document of the owner. -/
def lobbyRevoke (ownerId inviteCode grantId : String) (now : Nat) (s : DBState) :
    Except LobbyError Unit × DBState :=
  if inviteCode ≠ "" then
    let users1 := updateUser ownerId
      (fun u => { u with invites := u.invites.filter fun i => !(i.inviteCode == inviteCode) })
      s.users
    let grants1 := updateWhere
      (fun g => g.ownerId == ownerId && g.inviteCode == some inviteCode)
      (fun g => { g with status := GStatus.revoked, updatedAt := some now }) s.grants
    (.ok (), { users := users1, grants := grants1 })
  else if grantId ≠ "" then
    let users1 := updateUser ownerId
      (fun u => { u with
        granted := u.granted.filter fun e =>
          !(e.id == some grantId || e.grantId == some grantId) })
      s.users
    let grants1 := updateWhere
      (fun g => g.ownerId == ownerId && g.status == GStatus.active)
      (fun g => { g with status := GStatus.revoked, updatedAt := some now }) s.grants
    (.ok (), { users := users1, grants := grants1 })
  else (.error .missingArg, s)

/-- `POST /lobby/revoke-by-guest` for authenticated owner `ownerId`: pulls
ledger entries whose snapshot `guest._id` equals the raw `guestId` string and
revokes the grants documents keyed on `(ownerId, objId guestId)`. -/
def lobbyRevokeByGuest (ownerId guestIdRaw : String) (now : Nat) (s : DBState) :
    Except LobbyError Unit × DBState :=
  if guestIdRaw = "" then (.error .missingArg, s)
  else
    let users1 := updateUser ownerId
      (fun u => { u with granted := u.granted.filter fun e => !(e.guest.id == guestIdRaw) })
      s.users
    let grants1 := updateWhere
      (fun g => g.ownerId == ownerId && some g.guestId == objId guestIdRaw)
      (fun g => { g with status := GStatus.revoked, updatedAt := some now }) s.grants
    (.ok (), { users := users1, grants := grants1 })

/-- One row of the `granted` array returned by `GET /lobby/summary`. -/
structure SummaryEntry where
  status : GStatus
  inviteCode : Option String
  createdAt : Option Nat
  updatedAt : Option Nat
  id : Option String
  guestId : String
  guestEmail : String
  guestName : Option String
  guestPicture : Option String
deriving DecidableEq

/-- JS `a || b` on optional values (the summary's `g.updatedAt ||
g.lastUsedAt` and `g.id || g.grantId`). -/
def orOpt (a b : Option α) : Option α :=
  match a with
  | some x => some x
  | none => b

/-- The `granted` list built by `GET /lobby/summary` for one user document:
the mapped `lobby.granted` entries (`activeGrants`) concatenated with the
mapped still-pending `lobby.invites` (`pendingAsGrants`). -/
def summaryGranted (u : User) : List SummaryEntry :=
  let activeGrants := u.granted.map fun g =>
    { status := g.status.getD GStatus.active,
      inviteCode := g.inviteCode,
      createdAt := g.createdAt,
      updatedAt := orOpt g.updatedAt g.lastUsedAt,
      id := orOpt g.id g.grantId,
      guestId := g.guest.id,
      guestEmail := g.guest.email,
      guestName := g.guest.name,
      guestPicture := g.guest.picture }
  let pendingAsGrants := (u.invites.filter fun i => i.status == GStatus.pending).map fun inv =>
    ({ status := GStatus.pending,
       inviteCode := some inv.inviteCode,
       createdAt := some inv.createdAt,
       updatedAt := none,
       id := none,
       guestId := "",
       guestEmail := inv.email,
       guestName := none,
       guestPicture := none } : SummaryEntry)
  activeGrants ++ pendingAsGrants

/-- The `granted` list of `GET /lobby/summary` for an authenticated caller:
resolve the caller's user document, then build its `granted` array. -/
def lobbySummaryGranted (callerId : String) (s : DBState) : Option (List SummaryEntry) :=
  (s.users.find? (fun u => some u.id == objId callerId)).map summaryGranted

/-- One lobby operation together with its request-time inputs (the random
invite code and the clock value are inputs of the embedding). -/
inductive LobbyOp
  | invite (ownerId email code : String) (now : Nat)
  | accept (callerId code : String) (now : Nat)
  | reject (callerId code : String) (now : Nat)
  | revoke (ownerId code gid : String) (now : Nat)
  | revokeByGuest (ownerId guestId : String) (now : Nat)

/-- State transition of one lobby operation (response discarded). -/
def applyOp (s : DBState) : LobbyOp → DBState
  | .invite o e c n => lobbyInvite o e c n s
  | .accept c k n => (lobbyAccept c k n s).2
  | .reject c k n => (lobbyReject c k n s).2
  | .revoke o c g n => (lobbyRevoke o c g n s).2
  | .revokeByGuest o g n => (lobbyRevokeByGuest o g n s).2

/-- Two grants documents collide on the canonical key `(ownerId, guestId)`. -/
def sameKey (a b : Grant) : Prop :=
  a.ownerId = b.ownerId ∧ a.guestId = b.guestId

instance : DecidablePred fun p : Grant × Grant => sameKey p.1 p.2 := by
  intro p
  unfold sameKey
  infer_instance

instance (a b : Grant) : Decidable (sameKey a b) := by
  unfold sameKey
  infer_instance

/-- The Relationship-Store invariant: at most one grants document per
`(ownerId, guestId)` pair. -/
def atMostOnePerPair (l : List Grant) : Prop :=
  l.Pairwise fun a b => ¬ sameKey a b

/-- A document rewrite that leaves the `(ownerId, guestId)` key untouched
(every `$set` in the lobby handlers only touches `status`, `inviteCode` and
`updatedAt`). -/
def keyPreserving (f : Grant → Grant) : Prop :=
  ∀ g, (f g).ownerId = g.ownerId ∧ (f g).guestId = g.guestId

/- ------------------------------------------------------------------ -/
/- General lemmas about the collection-update helpers.                 -/
/- ------------------------------------------------------------------ -/

theorem mem_updateFirst {p : Grant → Bool} {f : Grant → Grant} :
    ∀ {l : List Grant} {b : Grant}, b ∈ updateFirst p f l → ∃ a ∈ l, b = a ∨ b = f a := by
  intro l
  induction l with
  | nil => intro b hb; cases hb
  | cons g gs ih =>
    intro b hb
    by_cases hpg : p g
    · rw [updateFirst, if_pos hpg] at hb
      rcases List.mem_cons.mp hb with h | h
      · exact ⟨g, List.mem_cons_self g gs, Or.inr h⟩
      · exact ⟨b, List.mem_cons_of_mem g h, Or.inl rfl⟩
    · rw [updateFirst, if_neg hpg] at hb
      rcases List.mem_cons.mp hb with h | h
      · exact ⟨g, List.mem_cons_self g gs, Or.inl h⟩
      · rcases ih h with ⟨a, ha, hor⟩
        exact ⟨a, List.mem_cons_of_mem g ha, hor⟩

theorem sameKey_of_keyPreserving {f : Grant → Grant} (hf : keyPreserving f) (a b : Grant) :
    sameKey a (f b) ↔ sameKey a b := by
  unfold sameKey
  rw [(hf b).1, (hf b).2]

theorem sameKey_of_keyPreserving_left {f : Grant → Grant} (hf : keyPreserving f) (a b : Grant) :
    sameKey (f a) b ↔ sameKey a b := by
  unfold sameKey
  rw [(hf a).1, (hf a).2]

theorem atMostOne_updateWhere (p : Grant → Bool) (f : Grant → Grant) (hf : keyPreserving f)
    {l : List Grant} (h : atMostOnePerPair l) : atMostOnePerPair (updateWhere p f l) := by
  unfold updateWhere
  refine List.Pairwise.map _ ?_ h
  intro a b hab hk
  apply hab
  by_cases hpa : p a <;> by_cases hpb : p b <;>
    simp only [if_pos, if_neg, hpa, hpb, if_true, if_false] at hk
  · exact ((sameKey_of_keyPreserving_left hf _ _).mp ((sameKey_of_keyPreserving hf _ _).mp hk))
  · exact (sameKey_of_keyPreserving_left hf _ _).mp hk
  · exact (sameKey_of_keyPreserving hf _ _).mp hk
  · exact hk

theorem atMostOne_updateFirst (p : Grant → Bool) (f : Grant → Grant) (hf : keyPreserving f) :
    ∀ {l : List Grant}, atMostOnePerPair l → atMostOnePerPair (updateFirst p f l) := by
  intro l
  induction l with
  | nil => intro h; exact h
  | cons g gs ih =>
    intro h
    rcases List.pairwise_cons.mp h with ⟨hg, hgs⟩
    by_cases hpg : p g
    · rw [updateFirst, if_pos hpg]
      refine List.pairwise_cons.mpr ⟨?_, hgs⟩
      intro b hb hk
      exact hg b hb ((sameKey_of_keyPreserving_left hf _ _).mp hk)
    · rw [updateFirst, if_neg hpg]
      refine List.pairwise_cons.mpr ⟨?_, ih hgs⟩
      intro b hb hk
      rcases mem_updateFirst hb with ⟨a, ha, hba | hba⟩
      · rw [hba] at hk
        exact hg a ha hk
      · rw [hba] at hk
        exact hg a ha ((sameKey_of_keyPreserving hf _ _).mp hk)

theorem atMostOne_append_single {l : List Grant} {new : Grant}
    (hnew : ∀ g ∈ l, ¬ sameKey g new) (h : atMostOnePerPair l) :
    atMostOnePerPair (l ++ [new]) := by
  unfold atMostOnePerPair
  rw [List.pairwise_append]
  refine ⟨h, List.pairwise_singleton _ _, ?_⟩
  intro a ha b hb
  rcases List.mem_singleton.mp hb with rfl
  exact hnew a ha

theorem atMostOne_mirrorPendingGrant (o gid c : String) (n : Nat) {l : List Grant}
    (h : atMostOnePerPair l) : atMostOnePerPair (mirrorPendingGrant o gid c n l) := by
  unfold mirrorPendingGrant
  split
  · refine atMostOne_updateFirst _ _ (fun g => ⟨?_, ?_⟩) h <;> rfl
  · rename_i hfind
    refine atMostOne_append_single ?_ h
    intro g hg hk
    refine List.find?_eq_none.mp hfind g hg ?_
    rcases hk with ⟨h1, h2⟩
    simp [h1, h2]

theorem atMostOne_upsertActiveGrant (o gid : String) (n : Nat) {l : List Grant}
    (h : atMostOnePerPair l) : atMostOnePerPair (upsertActiveGrant o gid n l) := by
  unfold upsertActiveGrant
  split
  · refine atMostOne_updateFirst _ _ (fun g => ⟨?_, ?_⟩) h <;> rfl
  · rename_i hfind
    refine atMostOne_append_single ?_ h
    intro g hg hk
    refine List.find?_eq_none.mp hfind g hg ?_
    rcases hk with ⟨h1, h2⟩
    simp [h1, h2]

theorem atMostOne_lobbyInvite (o e c : String) (n : Nat) (s : DBState)
    (h : atMostOnePerPair s.grants) : atMostOnePerPair (lobbyInvite o e c n s).grants := by
  unfold lobbyInvite
  dsimp only
  split
  · exact h
  · exact atMostOne_mirrorPendingGrant _ _ _ _ h

theorem atMostOne_lobbyAccept (c k : String) (n : Nat) (s : DBState)
    (h : atMostOnePerPair s.grants) : atMostOnePerPair (lobbyAccept c k n s).2.grants := by
  unfold lobbyAccept
  split
  · exact h
  · split
    · exact h
    · split
      · exact h
      · exact atMostOne_upsertActiveGrant _ _ _ h

theorem atMostOne_lobbyReject (c k : String) (n : Nat) (s : DBState)
    (h : atMostOnePerPair s.grants) : atMostOnePerPair (lobbyReject c k n s).2.grants := by
  unfold lobbyReject
  split
  · exact h
  · split
    · refine atMostOne_updateWhere _ _ (fun g => ⟨?_, ?_⟩) h <;> rfl
    · split
      · exact h
      · refine atMostOne_updateFirst _ _ (fun g => ⟨?_, ?_⟩) h <;> rfl

theorem atMostOne_lobbyRevoke (o c gid : String) (n : Nat) (s : DBState)
    (h : atMostOnePerPair s.grants) : atMostOnePerPair (lobbyRevoke o c gid n s).2.grants := by
  unfold lobbyRevoke
  split
  · refine atMostOne_updateWhere _ _ (fun g => ⟨?_, ?_⟩) h <;> rfl
  · split
    · refine atMostOne_updateWhere _ _ (fun g => ⟨?_, ?_⟩) h <;> rfl
    · exact h

theorem atMostOne_lobbyRevokeByGuest (o gid : String) (n : Nat) (s : DBState)
    (h : atMostOnePerPair s.grants) : atMostOnePerPair (lobbyRevokeByGuest o gid n s).2.grants := by
  unfold lobbyRevokeByGuest
  split
  · exact h
  · refine atMostOne_updateWhere _ _ (fun g => ⟨?_, ?_⟩) h <;> rfl

theorem atMostOne_applyOp (s : DBState) (op : LobbyOp)
    (h : atMostOnePerPair s.grants) : atMostOnePerPair (applyOp s op).grants := by
  cases op with
  | invite o e c n => exact atMostOne_lobbyInvite o e c n s h
  | accept c k n => exact atMostOne_lobbyAccept c k n s h
  | reject c k n => exact atMostOne_lobbyReject c k n s h
  | revoke o c g n => exact atMostOne_lobbyRevoke o c g n s h
  | revokeByGuest o g n => exact atMostOne_lobbyRevokeByGuest o g n s h

/-- The Prop form of the `/acl/can-act-as` grants query. -/
theorem aclGrantMatch_eq_true {t m : String} {g : Grant} :
    aclGrantMatch t m g = true ↔
      objId t = some g.ownerId ∧ objId m = some g.guestId ∧ g.status = GStatus.active := by
  simp [aclGrantMatch, and_assoc]

theorem mem_updateUser_of_ne {uid : String} {f : User → User} :
    ∀ {l : List User} {v : User}, v ∈ l → v.id ≠ uid → v ∈ updateUser uid f l := by
  intro l
  induction l with
  | nil => intro v hv _; cases hv
  | cons u us ih =>
    intro v hv hne
    rcases List.mem_cons.mp hv with rfl | hv2
    · have hc : (v.id == uid) = false := beq_eq_false_iff_ne.mpr hne
      rw [updateUser, hc]
      simp only [Bool.false_eq_true, if_false]
      exact List.mem_cons_self _ _
    · by_cases hc : u.id = uid
      · have hc2 : (u.id == uid) = true := beq_iff_eq.mpr hc
        rw [updateUser, hc2]
        simp only [if_true]
        exact List.mem_cons_of_mem _ hv2
      · have hc2 : (u.id == uid) = false := beq_eq_false_iff_ne.mpr hc
        rw [updateUser, hc2]
        simp only [Bool.false_eq_true, if_false]
        exact List.mem_cons_of_mem _ (ih hv2 hne)

theorem mem_updateUser {uid : String} {f : User → User} :
    ∀ {l : List User} {v : User}, v ∈ updateUser uid f l →
      ∃ u ∈ l, v = u ∨ (u.id = uid ∧ v = f u) := by
  intro l
  induction l with
  | nil => intro v hv; cases hv
  | cons u us ih =>
    intro v hv
    by_cases hc : u.id = uid
    · have hc2 : (u.id == uid) = true := beq_iff_eq.mpr hc
      rw [updateUser, hc2] at hv
      simp only [if_true] at hv
      rcases List.mem_cons.mp hv with rfl | hv2
      · exact ⟨u, List.mem_cons_self _ _, Or.inr ⟨hc, rfl⟩⟩
      · exact ⟨v, List.mem_cons_of_mem _ hv2, Or.inl rfl⟩
    · have hc2 : (u.id == uid) = false := beq_eq_false_iff_ne.mpr hc
      rw [updateUser, hc2] at hv
      simp only [Bool.false_eq_true, if_false] at hv
      rcases List.mem_cons.mp hv with rfl | hv2
      · exact ⟨v, List.mem_cons_self _ _, Or.inl rfl⟩
      · rcases ih hv2 with ⟨w, hw, hor⟩
        exact ⟨w, List.mem_cons_of_mem _ hw, hor⟩

theorem exists_mem_updateUser {uid : String} {f : User → User}
    (hf : ∀ x, (f x).id = x.id) :
    ∀ {l : List User} {u : User}, u ∈ l →
      ∃ u2 ∈ updateUser uid f l, u2.id = u.id ∧ (u2 = u ∨ u2 = f u) := by
  intro l
  induction l with
  | nil => intro u hu; cases hu
  | cons w ws ih =>
    intro u hu
    rcases List.mem_cons.mp hu with rfl | hu2
    · by_cases hc : u.id = uid
      · have hc2 : (u.id == uid) = true := beq_iff_eq.mpr hc
        rw [updateUser, hc2]
        simp only [if_true]
        exact ⟨f u, List.mem_cons_self _ _, hf u, Or.inr rfl⟩
      · have hc2 : (u.id == uid) = false := beq_eq_false_iff_ne.mpr hc
        rw [updateUser, hc2]
        simp only [Bool.false_eq_true, if_false]
        exact ⟨u, List.mem_cons_self _ _, rfl, Or.inl rfl⟩
    · by_cases hc : w.id = uid
      · have hc2 : (w.id == uid) = true := beq_iff_eq.mpr hc
        rw [updateUser, hc2]
        simp only [if_true]
        exact ⟨u, List.mem_cons_of_mem _ hu2, rfl, Or.inl rfl⟩
      · have hc2 : (w.id == uid) = false := beq_eq_false_iff_ne.mpr hc
        rw [updateUser, hc2]
        simp only [Bool.false_eq_true, if_false]
        rcases ih hu2 with ⟨u2, hu2m, hid, hor⟩
        exact ⟨u2, List.mem_cons_of_mem _ hu2m, hid, hor⟩

theorem hasPendingInvite_pull (k : String) (u : User) :
    hasPendingInvite k
      { u with invites := u.invites.filter fun i => !(i.inviteCode == k) } = false := by
  unfold hasPendingInvite
  rw [List.any_eq_false]
  intro i hi
  rcases List.mem_filter.mp hi with ⟨_, hcond⟩
  simp only [Bool.not_eq_true', beq_eq_false_iff_ne] at hcond
  simp [hcond]

theorem updateUser_comp (uid : String) (f g : User → User)
    (hf : ∀ x, (f x).id = x.id) :
    ∀ l : List User, updateUser uid g (updateUser uid f l)
      = updateUser uid (fun u => g (f u)) l := by
  intro l
  induction l with
  | nil => rfl
  | cons u us ih =>
    by_cases hc : u.id = uid
    · have hc2 : (u.id == uid) = true := beq_iff_eq.mpr hc
      have hc3 : ((f u).id == uid) = true := by
        rw [hf u]
        exact hc2
      simp only [updateUser, hc2, hc3, if_true]
    · have hc2 : (u.id == uid) = false := beq_eq_false_iff_ne.mpr hc
      simp only [updateUser, hc2, Bool.false_eq_true, if_false]
      rw [ih]

theorem no_pending_after_updateUser (k : String) (f : User → User)
    (hfp : ∀ u, hasPendingInvite k (f u) = false) :
    ∀ (l : List User), l.Pairwise (fun a b => a.id ≠ b.id) →
      l.countP (hasPendingInvite k) ≤ 1 →
      ∀ o, l.find? (hasPendingInvite k) = some o →
      ∀ v ∈ updateUser o.id f l, hasPendingInvite k v = false := by
  intro l
  induction l with
  | nil => intro _ _ o ho; cases ho
  | cons u us ih =>
    intro hPair hCount o ho v hv
    rcases List.pairwise_cons.mp hPair with ⟨hHead, hTail⟩
    by_cases hpu : hasPendingInvite k u = true
    · rw [List.find?_cons_of_pos (p := hasPendingInvite k) _ hpu] at ho
      have ho2 : o = u := by
        injection ho with h
        exact h.symm
      have hc2 : (u.id == o.id) = true := beq_iff_eq.mpr (by rw [ho2])
      simp only [updateUser, hc2, if_true] at hv
      rcases List.mem_cons.mp hv with rfl | hv2
      · exact hfp u
      · have hzero : us.countP (hasPendingInvite k) = 0 := by
          rw [List.countP_cons_of_pos _ _ hpu] at hCount
          omega
        have := List.countP_eq_zero.mp hzero v hv2
        simpa using this
    · have hpu2 : hasPendingInvite k u = false := by
        revert hpu
        cases hasPendingInvite k u <;> simp
      rw [List.find?_cons_of_neg (p := hasPendingInvite k) _ (by simp [hpu2])] at ho
      have hod : u.id ≠ o.id := hHead o (List.mem_of_find?_eq_some ho)
      have hc2 : (u.id == o.id) = false := beq_eq_false_iff_ne.mpr hod
      simp only [updateUser, hc2, Bool.false_eq_true, if_false] at hv
      rcases List.mem_cons.mp hv with rfl | hv2
      · exact hpu2
      · have hCount2 : us.countP (hasPendingInvite k) ≤ 1 := by
          rw [List.countP_cons_of_neg _ _ (by simp [hpu2])] at hCount
          exact hCount
        exact ih hTail hCount2 o ho v hv2

theorem find?_guest_updateUser (c uid : String) (f : User → User)
    (hf : ∀ x, (f x).id = x.id) :
    ∀ l : List User, ((updateUser uid f l).find? fun u => some u.id == objId c).isSome
      = (l.find? fun u => some u.id == objId c).isSome := by
  intro l
  induction l with
  | nil => rfl
  | cons u us ih =>
    by_cases hc : u.id = uid
    · have hc2 : (u.id == uid) = true := beq_iff_eq.mpr hc
      simp only [updateUser, hc2, if_true]
      by_cases hq : (some u.id == objId c) = true
      · have hq2 : (some (f u).id == objId c) = true := by
          rw [hf u]
          exact hq
        rw [List.find?_cons_of_pos (p := fun v : User => some v.id == objId c) _ hq2,
          List.find?_cons_of_pos (p := fun v : User => some v.id == objId c) _ hq]
        rfl
      · have hq2 : ¬ (some (f u).id == objId c) = true := by
          rw [hf u]
          exact hq
        rw [List.find?_cons_of_neg (p := fun v : User => some v.id == objId c) _ hq2,
          List.find?_cons_of_neg (p := fun v : User => some v.id == objId c) _ hq]
    · have hc2 : (u.id == uid) = false := beq_eq_false_iff_ne.mpr hc
      simp only [updateUser, hc2, Bool.false_eq_true, if_false]
      by_cases hq : (some u.id == objId c) = true
      · rw [List.find?_cons_of_pos (p := fun v : User => some v.id == objId c) _ hq,
          List.find?_cons_of_pos (p := fun v : User => some v.id == objId c) _ hq]
      · rw [List.find?_cons_of_neg (p := fun v : User => some v.id == objId c) _ hq,
          List.find?_cons_of_neg (p := fun v : User => some v.id == objId c) _ hq]
        exact ih

theorem updated_mem_updateUser (uid : String) (f : User → User) :
    ∀ {l : List User}, (∃ u ∈ l, u.id = uid) →
      ∃ w ∈ l, w.id = uid ∧ f w ∈ updateUser uid f l := by
  intro l
  induction l with
  | nil =>
    intro hex
    rcases hex with ⟨u, hu, _⟩
    cases hu
  | cons u us ih =>
    intro hex
    by_cases hc : u.id = uid
    · have hc2 : (u.id == uid) = true := beq_iff_eq.mpr hc
      rw [updateUser, hc2]
      simp only [if_true]
      exact ⟨u, List.mem_cons_self _ _, hc, List.mem_cons_self _ _⟩
    · have hc2 : (u.id == uid) = false := beq_eq_false_iff_ne.mpr hc
      rw [updateUser, hc2]
      simp only [Bool.false_eq_true, if_false]
      rcases hex with ⟨x, hx, hxid⟩
      rcases List.mem_cons.mp hx with rfl | hx2
      · exact absurd hxid hc
      · rcases ih ⟨x, hx2, hxid⟩ with ⟨w, hw, hwid, hwmem⟩
        exact ⟨w, List.mem_cons_of_mem _ hw, hwid, List.mem_cons_of_mem _ hwmem⟩

/- ------------------------------------------------------------------ -/
/- Claims.                                                             -/
/- ------------------------------------------------------------------ -/

/-- Claim C1: for an authenticated caller `guest` and a target owner id
`owner` (a well-formed id string: trim-invariant and non-empty) with
`guest ≠ owner`, the oracle `canActAs(guest, owner)` answers allowed exactly
when an active grants document for the pair `(owner, guest)` exists, and in
every other case answers denied with HTTP 403 and reason `no-grant`. -/
theorem claim_C1_canActAs_grant_iff (guest owner : String) (grants : List Grant)
    (hTrim : jsTrim owner = owner) (hNe : owner ≠ "") (hDiff : guest ≠ owner) :
    ((∃ g ∈ grants, objId owner = some g.ownerId ∧ objId guest = some g.guestId ∧
        g.status = GStatus.active) →
      canActAs guest owner grants = ⟨200, true, "grant"⟩) ∧
    ((¬ ∃ g ∈ grants, objId owner = some g.ownerId ∧ objId guest = some g.guestId ∧
        g.status = GStatus.active) →
      canActAs guest owner grants = ⟨403, false, "no-grant"⟩) := by
  unfold canActAs
  rw [hTrim, if_neg hNe, if_neg hDiff]
  constructor
  · intro hex
    rcases hex with ⟨g, hgmem, h1, h2, h3⟩
    have hfind : (grants.find? (aclGrantMatch owner guest)).isSome := by
      rw [List.find?_isSome]
      exact ⟨g, hgmem, aclGrantMatch_eq_true.mpr ⟨h1, h2, h3⟩⟩
    rcases Option.isSome_iff_exists.mp hfind with ⟨g2, hg2⟩
    rw [hg2]
  · intro hnex
    have hfind : grants.find? (aclGrantMatch owner guest) = none := by
      rw [List.find?_eq_none]
      intro g hgmem hmatch
      exact hnex ⟨g, hgmem, aclGrantMatch_eq_true.mp hmatch⟩
    rw [hfind]

/-- Witness for C1 at a concrete store: allowed with an active grant present,
denied with reason `no-grant` on the empty store. -/
theorem claim_C1_witness :
    canActAs "bbbbbbbbbbbbbbbbbbbbbbbb" "aaaaaaaaaaaaaaaaaaaaaaaa"
        [⟨"aaaaaaaaaaaaaaaaaaaaaaaa", "bbbbbbbbbbbbbbbbbbbbbbbb", GStatus.active, none, none, none⟩]
      = ⟨200, true, "grant"⟩ ∧
    canActAs "bbbbbbbbbbbbbbbbbbbbbbbb" "aaaaaaaaaaaaaaaaaaaaaaaa" [] = ⟨403, false, "no-grant"⟩ :=
  ⟨(claim_C1_canActAs_grant_iff "bbbbbbbbbbbbbbbbbbbbbbbb" "aaaaaaaaaaaaaaaaaaaaaaaa" _
      (by decide) (by decide) (by decide)).1 (by decide),
   (claim_C1_canActAs_grant_iff "bbbbbbbbbbbbbbbbbbbbbbbb" "aaaaaaaaaaaaaaaaaaaaaaaa" []
      (by decide) (by decide) (by decide)).2 (by decide)⟩

/-- Claim C2: for every authenticated account id `x` (trim-invariant and
non-empty, as every session uid is), `canActAs(x, x)` answers allowed with
reason `self`, whatever the grants store holds. -/
theorem claim_C2_canActAs_self (x : String) (grants : List Grant)
    (hTrim : jsTrim x = x) (hNe : x ≠ "") :
    canActAs x x grants = ⟨200, true, "self"⟩ := by
  unfold canActAs
  rw [hTrim, if_neg hNe, if_pos rfl]

/-- Witness for C2, on a store that even carries a revoked relationship for
the pair `(x, x)`. -/
theorem claim_C2_witness :
    canActAs "aaaaaaaaaaaaaaaaaaaaaaaa" "aaaaaaaaaaaaaaaaaaaaaaaa"
        [⟨"aaaaaaaaaaaaaaaaaaaaaaaa", "aaaaaaaaaaaaaaaaaaaaaaaa", GStatus.revoked, none, none, none⟩]
      = ⟨200, true, "self"⟩ :=
  claim_C2_canActAs_self "aaaaaaaaaaaaaaaaaaaaaaaa" _ (by decide) (by decide)

/-- Claim C3: starting from any store satisfying the at-most-one-Relationship-
per-pair invariant (in particular the empty store), every sequence of lobby
operations (invite, accept, reject, both revoke forms) preserves it. -/
theorem claim_C3_at_most_one_relationship (init : DBState)
    (hInit : atMostOnePerPair init.grants) (ops : List LobbyOp) :
    atMostOnePerPair ((ops.foldl applyOp init).grants) := by
  induction ops generalizing init with
  | nil => exact hInit
  | cons op rest ih => exact ih (applyOp init op) (atMostOne_applyOp init op hInit)

/-- Witness for C3: a concrete run (invite, accept, re-invite, revoke) from
the empty grants store. -/
theorem claim_C3_witness :
    atMostOnePerPair
      (([LobbyOp.invite "aaaaaaaaaaaaaaaaaaaaaaaa" "guest@x.com" "INV-AAAA-BBBB" 1,
         LobbyOp.accept "bbbbbbbbbbbbbbbbbbbbbbbb" "INV-AAAA-BBBB" 2,
         LobbyOp.invite "aaaaaaaaaaaaaaaaaaaaaaaa" "guest@x.com" "INV-CCCC-DDDD" 3,
         LobbyOp.revoke "aaaaaaaaaaaaaaaaaaaaaaaa" "INV-CCCC-DDDD" "" 4].foldl applyOp
        ⟨[⟨"aaaaaaaaaaaaaaaaaaaaaaaa", "owner@x.com", none, none, [], []⟩,
          ⟨"bbbbbbbbbbbbbbbbbbbbbbbb", "guest@x.com", none, none, [], []⟩], []⟩).grants) :=
  claim_C3_at_most_one_relationship
    ⟨[⟨"aaaaaaaaaaaaaaaaaaaaaaaa", "owner@x.com", none, none, [], []⟩,
      ⟨"bbbbbbbbbbbbbbbbbbbbbbbb", "guest@x.com", none, none, [], []⟩], []⟩
    List.Pairwise.nil _

/-- Claim C10, counterexample: the target `" aaaaaaaaaaaaaaaaaaaaaaaa"` (a
leading space before the caller's own id) is non-empty, is not a well-formed
`ObjectId` string, and differs from the caller id, yet `canActAs` answers
allowed with reason `self` (the handler trims the raw target before the
self-comparison), not denied with `no-grant` as the claim states. -/
theorem claim_C10_counterexample :
    (" aaaaaaaaaaaaaaaaaaaaaaaa" ≠ "") ∧
    isValidObjectId " aaaaaaaaaaaaaaaaaaaaaaaa" = false ∧
    (" aaaaaaaaaaaaaaaaaaaaaaaa" ≠ "aaaaaaaaaaaaaaaaaaaaaaaa") ∧
    canActAs "aaaaaaaaaaaaaaaaaaaaaaaa" " aaaaaaaaaaaaaaaaaaaaaaaa" []
      = ⟨200, true, "self"⟩ := by
  refine ⟨by decide, by decide, by decide, by decide⟩

/-- Claim C10 as amended: for a target string that is already trimmed,
non-empty, not a well-formed `ObjectId` string, and different from the caller
id, the oracle answers HTTP 403 with reason `no-grant` — `objId` maps the
malformed id to `null` and the store lookup finds no active relationship. -/
theorem claim_C10_amended (c t : String) (grants : List Grant)
    (hTrim : jsTrim t = t) (hNe : t ≠ "") (hBad : isValidObjectId t = false)
    (hDiff : t ≠ c) :
    canActAs c t grants = ⟨403, false, "no-grant"⟩ := by
  unfold canActAs
  rw [hTrim, if_neg hNe, if_neg fun h => hDiff h.symm]
  have hnone : objId t = none := by
    unfold objId
    rw [hBad]
    rfl
  have hfind : grants.find? (aclGrantMatch t c) = none := by
    rw [List.find?_eq_none]
    intro g _ hmatch
    rcases aclGrantMatch_eq_true.mp hmatch with ⟨h1, _, _⟩
    rw [hnone] at h1
    cases h1
  rw [hfind]

/-- Witness for the amended C10: a malformed 24-character non-hex target on a
store that does hold an active grant for the caller. -/
theorem claim_C10_witness :
    canActAs "bbbbbbbbbbbbbbbbbbbbbbbb" "zzzzzzzzzzzzzzzzzzzzzzzz"
        [⟨"aaaaaaaaaaaaaaaaaaaaaaaa", "bbbbbbbbbbbbbbbbbbbbbbbb", GStatus.active, none, none, none⟩]
      = ⟨403, false, "no-grant"⟩ :=
  claim_C10_amended "bbbbbbbbbbbbbbbbbbbbbbbb" "zzzzzzzzzzzzzzzzzzzzzzzz" _
    (by decide) (by decide) (by decide) (by decide)

/-- Claim C6, counterexample: the owner holds two active relationships, one
per guest, with ledger entries identified by `gid1` and `gid2`.  Revoking by
`gid1` leaves both canonical grants documents `revoked` — the `(owner, c)`
relationship identified by `gid2` loses its `active` status too, though the
claim says every other relationship of the owner keeps its status. -/
theorem claim_C6_counterexample :
    ((lobbyRevoke "aaaaaaaaaaaaaaaaaaaaaaaa" "" "gid1" 5
        ⟨[⟨"aaaaaaaaaaaaaaaaaaaaaaaa", "o@x.com", none, none, [],
            [⟨some "gid1", none, some GStatus.active, none, some 1, some 1, none,
              ⟨"bbbbbbbbbbbbbbbbbbbbbbbb", "g@x.com", none, none⟩⟩,
             ⟨some "gid2", none, some GStatus.active, none, some 1, some 1, none,
              ⟨"cccccccccccccccccccccccc", "c@x.com", none, none⟩⟩]⟩],
          [⟨"aaaaaaaaaaaaaaaaaaaaaaaa", "bbbbbbbbbbbbbbbbbbbbbbbb", GStatus.active, none,
            some 1, some 1⟩,
           ⟨"aaaaaaaaaaaaaaaaaaaaaaaa", "cccccccccccccccccccccccc", GStatus.active, none,
            some 1, some 1⟩]⟩).2.grants).map Grant.status
      = [GStatus.revoked, GStatus.revoked] := by decide

/-- Claim C6 as amended: revoking by relationship identifier removes exactly
the matching entries from the owner's ledger `granted` list, but in the
canonical store it marks EVERY active grants document of that owner revoked,
not only the one the identifier names; grants documents of other owners, the
owner's non-active documents, other users' ledgers, and the owner's
non-matching ledger entries are untouched. -/
theorem claim_C6_amended (s : DBState) (o gid : String) (now : Nat) (hGid : gid ≠ "") :
    (∀ g ∈ s.grants, g.ownerId ≠ o → g ∈ (lobbyRevoke o "" gid now s).2.grants) ∧
    (∀ g ∈ s.grants, g.ownerId = o → g.status = GStatus.active →
      ({ g with status := GStatus.revoked, updatedAt := some now } : Grant)
        ∈ (lobbyRevoke o "" gid now s).2.grants) ∧
    (∀ g ∈ s.grants, g.ownerId = o → g.status ≠ GStatus.active →
      g ∈ (lobbyRevoke o "" gid now s).2.grants) ∧
    (∀ u ∈ s.users, u.id ≠ o → u ∈ (lobbyRevoke o "" gid now s).2.users) ∧
    (∀ u ∈ s.users, u.id = o → ∀ e ∈ u.granted, e.id ≠ some gid → e.grantId ≠ some gid →
      ∃ u2 ∈ (lobbyRevoke o "" gid now s).2.users, u2.id = u.id ∧ e ∈ u2.granted) := by
  have hres : (lobbyRevoke o "" gid now s).2 =
      ⟨updateUser o (fun u => { u with
          granted := u.granted.filter fun e =>
            !(e.id == some gid || e.grantId == some gid) }) s.users,
        updateWhere (fun g => g.ownerId == o && g.status == GStatus.active)
          (fun g => { g with status := GStatus.revoked, updatedAt := some now }) s.grants⟩ := by
    unfold lobbyRevoke
    rw [if_neg (fun h => h rfl), if_pos hGid]
  rw [hres]
  refine ⟨?_, ?_, ?_, ?_, ?_⟩
  · intro g hg hne
    refine List.mem_map.mpr ⟨g, hg, ?_⟩
    simp [hne]
  · intro g hg h1 h2
    refine List.mem_map.mpr ⟨g, hg, ?_⟩
    simp [h1, h2]
  · intro g hg h1 hne
    refine List.mem_map.mpr ⟨g, hg, ?_⟩
    simp [h1, hne]
  · intro u hu hne
    exact mem_updateUser_of_ne hu hne
  · intro u hu hid e he hne1 hne2
    rcases @exists_mem_updateUser o
        (fun u => { u with
          granted := u.granted.filter fun e =>
            !(e.id == some gid || e.grantId == some gid) })
        (fun x => rfl) s.users u hu with ⟨u2, hu2, hid2, hor⟩
    refine ⟨u2, hu2, hid2, ?_⟩
    rcases hor with rfl | hval
    · exact he
    · rw [hval]
      refine List.mem_filter.mpr ⟨he, ?_⟩
      simp [hne1, hne2]

/-- Witness for the amended C6: a grants document of a different owner
survives the revocation untouched. -/
theorem claim_C6_witness :
    (⟨"cccccccccccccccccccccccc", "dddddddddddddddddddddddd", GStatus.active, none, none, none⟩
        : Grant) ∈
      (lobbyRevoke "aaaaaaaaaaaaaaaaaaaaaaaa" "" "gid1" 5
        ⟨[], [⟨"cccccccccccccccccccccccc", "dddddddddddddddddddddddd", GStatus.active, none,
          none, none⟩]⟩).2.grants :=
  (claim_C6_amended
      ⟨[], [⟨"cccccccccccccccccccccccc", "dddddddddddddddddddddddd", GStatus.active, none,
        none, none⟩]⟩
      "aaaaaaaaaaaaaaaaaaaaaaaa" "gid1" 5 (by decide)).1 _ (by decide) (by decide)

/-- Claim C7, counterexample: a reachable run — invite, accept, re-invite the
same email, accept the new code — after which `/lobby/summary` returns the
owner's `granted` list carrying the SAME logical relationship (same guest id
and email) twice; no deduplication happens. -/
theorem claim_C7_counterexample :
    (lobbySummaryGranted "aaaaaaaaaaaaaaaaaaaaaaaa"
        (([LobbyOp.invite "aaaaaaaaaaaaaaaaaaaaaaaa" "guest@x.com" "INV-AAAA-BBBB" 1,
           LobbyOp.accept "bbbbbbbbbbbbbbbbbbbbbbbb" "INV-AAAA-BBBB" 2,
           LobbyOp.invite "aaaaaaaaaaaaaaaaaaaaaaaa" "guest@x.com" "INV-CCCC-DDDD" 3,
           LobbyOp.accept "bbbbbbbbbbbbbbbbbbbbbbbb" "INV-CCCC-DDDD" 4].foldl applyOp
          ⟨[⟨"aaaaaaaaaaaaaaaaaaaaaaaa", "owner@x.com", none, none, [], []⟩,
            ⟨"bbbbbbbbbbbbbbbbbbbbbbbb", "guest@x.com", none, none, [], []⟩],
           []⟩))).map (List.map fun e => (e.guestId, e.guestEmail, e.status))
      = some [("bbbbbbbbbbbbbbbbbbbbbbbb", "guest@x.com", GStatus.active),
              ("bbbbbbbbbbbbbbbbbbbbbbbb", "guest@x.com", GStatus.active)] := by decide

/-- Claim C7 as amended: the `granted` list of `/lobby/summary` performs no
deduplication at all — it is the concatenation of one row per ledger
`granted` entry and one row per still-pending invite, so its length is
exactly the sum of the two, and a relationship represented twice appears
twice. -/
theorem claim_C7_amended (u : User) :
    (summaryGranted u).length =
      u.granted.length + (u.invites.filter fun i => i.status == GStatus.pending).length := by
  simp [summaryGranted]

/-- Claim C8, counterexample: after a first successful reject of a pending
invite (which removes the invite and revokes the mirrored grants document), a
second reject of the same code returns the error `invite_not_found` (HTTP
404), not the success the claim states. -/
theorem claim_C8_counterexample :
    (lobbyReject "bbbbbbbbbbbbbbbbbbbbbbbb" "INV-AAAA-BBBB" 2
        ⟨[⟨"aaaaaaaaaaaaaaaaaaaaaaaa", "owner@x.com", none, none,
            [⟨"guest@x.com", "INV-AAAA-BBBB", GStatus.pending, 1⟩], []⟩,
          ⟨"bbbbbbbbbbbbbbbbbbbbbbbb", "guest@x.com", none, none, [], []⟩],
         [⟨"aaaaaaaaaaaaaaaaaaaaaaaa", "bbbbbbbbbbbbbbbbbbbbbbbb", GStatus.pending,
           some "INV-AAAA-BBBB", some 1, some 1⟩]⟩).1 = .ok () ∧
    (lobbyReject "bbbbbbbbbbbbbbbbbbbbbbbb" "INV-AAAA-BBBB" 3
        (lobbyReject "bbbbbbbbbbbbbbbbbbbbbbbb" "INV-AAAA-BBBB" 2
          ⟨[⟨"aaaaaaaaaaaaaaaaaaaaaaaa", "owner@x.com", none, none,
              [⟨"guest@x.com", "INV-AAAA-BBBB", GStatus.pending, 1⟩], []⟩,
            ⟨"bbbbbbbbbbbbbbbbbbbbbbbb", "guest@x.com", none, none, [], []⟩],
           [⟨"aaaaaaaaaaaaaaaaaaaaaaaa", "bbbbbbbbbbbbbbbbbbbbbbbb", GStatus.pending,
             some "INV-AAAA-BBBB", some 1, some 1⟩]⟩).2).1
      = .error .inviteNotFound := by
  exact ⟨by decide, by decide⟩

/-- Claim C8 as amended: once the invite is gone from every user's ledger and
no pending mirrored grants document matches the caller and code, a repeated
reject returns the error `invite_not_found` with the state unchanged — it
does not succeed as a no-op. -/
theorem claim_C8_amended (s : DBState) (c k : String) (now : Nat) (hk : k ≠ "")
    (hNoInv : ∀ u ∈ s.users, hasPendingInvite k u = false)
    (hNoGrant : ∀ g ∈ s.grants,
      ¬(some g.guestId = objId c ∧ g.inviteCode = some k ∧ g.status = GStatus.pending)) :
    lobbyReject c k now s = (.error .inviteNotFound, s) := by
  unfold lobbyReject
  rw [if_neg hk]
  have h1 : s.users.find? (hasPendingInvite k) = none := by
    rw [List.find?_eq_none]
    intro u hu
    simp [hNoInv u hu]
  have h2 : s.grants.find? (fun g => some g.guestId == objId c
      && g.inviteCode == some k && g.status == GStatus.pending) = none := by
    rw [List.find?_eq_none]
    intro g hg hmatch
    refine hNoGrant g hg ?_
    simpa [and_assoc] using hmatch
  rw [h1, h2]

/-- Witness for the amended C8: the state left behind by a successful first
reject (invite pulled, mirrored grants document revoked). -/
theorem claim_C8_witness :
    lobbyReject "bbbbbbbbbbbbbbbbbbbbbbbb" "INV-AAAA-BBBB" 3
        ⟨[⟨"aaaaaaaaaaaaaaaaaaaaaaaa", "owner@x.com", none, none, [], []⟩,
          ⟨"bbbbbbbbbbbbbbbbbbbbbbbb", "guest@x.com", none, none, [], []⟩],
         [⟨"aaaaaaaaaaaaaaaaaaaaaaaa", "bbbbbbbbbbbbbbbbbbbbbbbb", GStatus.revoked,
           some "INV-AAAA-BBBB", some 1, some 2⟩]⟩
      = (.error .inviteNotFound,
         ⟨[⟨"aaaaaaaaaaaaaaaaaaaaaaaa", "owner@x.com", none, none, [], []⟩,
           ⟨"bbbbbbbbbbbbbbbbbbbbbbbb", "guest@x.com", none, none, [], []⟩],
          [⟨"aaaaaaaaaaaaaaaaaaaaaaaa", "bbbbbbbbbbbbbbbbbbbbbbbb", GStatus.revoked,
            some "INV-AAAA-BBBB", some 1, some 2⟩]⟩) :=
  claim_C8_amended _ "bbbbbbbbbbbbbbbbbbbbbbbb" "INV-AAAA-BBBB" 3
    (by decide) (by decide) (by decide)

/-- Claim C4, counterexample: after a first successful accept of a pending
invite (which consumed the invite), a second accept of the same code by the
same guest returns the error `invite_not_found` — not the same `grantId`
again as the claim states. -/
theorem claim_C4_counterexample :
    (lobbyAccept "bbbbbbbbbbbbbbbbbbbbbbbb" "INV-AAAA-BBBB" 2
        ⟨[⟨"aaaaaaaaaaaaaaaaaaaaaaaa", "owner@x.com", none, none,
            [⟨"guest@x.com", "INV-AAAA-BBBB", GStatus.pending, 1⟩], []⟩,
          ⟨"bbbbbbbbbbbbbbbbbbbbbbbb", "guest@x.com", none, none, [], []⟩],
         [⟨"aaaaaaaaaaaaaaaaaaaaaaaa", "bbbbbbbbbbbbbbbbbbbbbbbb", GStatus.pending,
           some "INV-AAAA-BBBB", some 1, some 1⟩]⟩).1
      = .ok "grant_aaaaaaaaaaaaaaaaaaaaaaaa_bbbbbbbbbbbbbbbbbbbbbbbb_2" ∧
    (lobbyAccept "bbbbbbbbbbbbbbbbbbbbbbbb" "INV-AAAA-BBBB" 3
        (lobbyAccept "bbbbbbbbbbbbbbbbbbbbbbbb" "INV-AAAA-BBBB" 2
          ⟨[⟨"aaaaaaaaaaaaaaaaaaaaaaaa", "owner@x.com", none, none,
              [⟨"guest@x.com", "INV-AAAA-BBBB", GStatus.pending, 1⟩], []⟩,
            ⟨"bbbbbbbbbbbbbbbbbbbbbbbb", "guest@x.com", none, none, [], []⟩],
           [⟨"aaaaaaaaaaaaaaaaaaaaaaaa", "bbbbbbbbbbbbbbbbbbbbbbbb", GStatus.pending,
             some "INV-AAAA-BBBB", some 1, some 1⟩]⟩).2).1
      = .error .inviteNotFound := by
  exact ⟨by decide, by decide⟩

/-- Claim C4 as amended: for a standard (non-`GRANT-`) code held as a pending
invite by at most one owner (user ids being unique), once a first accept of
that code succeeds, repeating the accept returns the error `invite_not_found`
and leaves the state unchanged — in particular the repeat never mints a
second grant id and never creates a second active relationship for the
pair. -/
theorem claim_C4_amended (s : DBState) (c k : String) (n1 n2 : Nat) (gid : String)
    (hIds : s.users.Pairwise fun a b => a.id ≠ b.id)
    (hUniq : s.users.countP (hasPendingInvite k) ≤ 1)
    (hNotGrant : jsStartsWith "GRANT-" k = false)
    (hOk : (lobbyAccept c k n1 s).1 = .ok gid) :
    lobbyAccept c k n2 (lobbyAccept c k n1 s).2
      = (.error .inviteNotFound, (lobbyAccept c k n1 s).2) := by
  by_cases hk : k = ""
  · simp [lobbyAccept, hk] at hOk
  cases hg : s.users.find? (fun u => some u.id == objId c) with
  | none => simp [lobbyAccept, hk, hg] at hOk
  | some u =>
  cases hro : acceptResolveOwner k u s with
  | none => simp [lobbyAccept, hk, hg, hro] at hOk
  | some o =>
  have hl : s.users.find? (hasPendingInvite k) = some o := by
    unfold acceptResolveOwner at hro
    cases hfl : s.users.find? (hasPendingInvite k) with
    | some o2 =>
      rw [hfl] at hro
      exact hro
    | none =>
      rw [hfl, hNotGrant] at hro
      simp at hro
  have hpost : (lobbyAccept c k n1 s).2 =
      ⟨updateUser o.id
          (fun w => { w with
            granted := w.granted ++ [mkGrantedEntry (mkGrantId o.id u.id n1) u n1] })
          (updateUser o.id
            (fun w => { w with invites := w.invites.filter fun i => !(i.inviteCode == k) })
            s.users),
        upsertActiveGrant o.id u.id n1 s.grants⟩ := by
    simp [lobbyAccept, hk, hg, hro]
  rw [hpost]
  have hcomp := updateUser_comp o.id
    (fun w => { w with invites := w.invites.filter fun i => !(i.inviteCode == k) })
    (fun w => { w with
      granted := w.granted ++ [mkGrantedEntry (mkGrantId o.id u.id n1) u n1] })
    (fun x => rfl) s.users
  have hnopend : ∀ v ∈ updateUser o.id
      (fun w => { w with
        granted := w.granted ++ [mkGrantedEntry (mkGrantId o.id u.id n1) u n1] })
      (updateUser o.id
        (fun w => { w with invites := w.invites.filter fun i => !(i.inviteCode == k) })
        s.users), hasPendingInvite k v = false := by
    rw [hcomp]
    refine no_pending_after_updateUser k _ ?_ s.users hIds hUniq o hl
    exact fun w => hasPendingInvite_pull k w
  have hguest2 : ((updateUser o.id
      (fun w => { w with
        granted := w.granted ++ [mkGrantedEntry (mkGrantId o.id u.id n1) u n1] })
      (updateUser o.id
        (fun w => { w with invites := w.invites.filter fun i => !(i.inviteCode == k) })
        s.users)).find? fun v => some v.id == objId c).isSome := by
    rw [find?_guest_updateUser c o.id
        (fun w => { w with
          granted := w.granted ++ [mkGrantedEntry (mkGrantId o.id u.id n1) u n1] })
        (fun x => rfl),
      find?_guest_updateUser c o.id
        (fun w => { w with invites := w.invites.filter fun i => !(i.inviteCode == k) })
        (fun x => rfl), hg]
    rfl
  rcases Option.isSome_iff_exists.mp hguest2 with ⟨u2, hu2⟩
  unfold lobbyAccept
  rw [if_neg hk]
  simp only [hu2]
  have hro2 : acceptResolveOwner k u2
      ⟨updateUser o.id
          (fun w => { w with
            granted := w.granted ++ [mkGrantedEntry (mkGrantId o.id u.id n1) u n1] })
          (updateUser o.id
            (fun w => { w with invites := w.invites.filter fun i => !(i.inviteCode == k) })
            s.users),
        upsertActiveGrant o.id u.id n1 s.grants⟩ = none := by
    unfold acceptResolveOwner
    have hfl2 : (updateUser o.id
        (fun w => { w with
          granted := w.granted ++ [mkGrantedEntry (mkGrantId o.id u.id n1) u n1] })
        (updateUser o.id
          (fun w => { w with invites := w.invites.filter fun i => !(i.inviteCode == k) })
          s.users)).find? (hasPendingInvite k) = none := by
      rw [List.find?_eq_none]
      intro v hv
      simp [hnopend v hv]
    rw [hfl2, hNotGrant]
    simp
  rw [hro2]

/-- Witness for the amended C4: the concrete invite/accept scenario of the
counterexample, repeated through the theorem. -/
theorem claim_C4_witness :
    lobbyAccept "bbbbbbbbbbbbbbbbbbbbbbbb" "INV-AAAA-BBBB" 3
        (lobbyAccept "bbbbbbbbbbbbbbbbbbbbbbbb" "INV-AAAA-BBBB" 2
          ⟨[⟨"aaaaaaaaaaaaaaaaaaaaaaaa", "owner@x.com", none, none,
              [⟨"guest@x.com", "INV-AAAA-BBBB", GStatus.pending, 1⟩], []⟩,
            ⟨"bbbbbbbbbbbbbbbbbbbbbbbb", "guest@x.com", none, none, [], []⟩],
           [⟨"aaaaaaaaaaaaaaaaaaaaaaaa", "bbbbbbbbbbbbbbbbbbbbbbbb", GStatus.pending,
             some "INV-AAAA-BBBB", some 1, some 1⟩]⟩).2
      = (.error .inviteNotFound,
         (lobbyAccept "bbbbbbbbbbbbbbbbbbbbbbbb" "INV-AAAA-BBBB" 2
          ⟨[⟨"aaaaaaaaaaaaaaaaaaaaaaaa", "owner@x.com", none, none,
              [⟨"guest@x.com", "INV-AAAA-BBBB", GStatus.pending, 1⟩], []⟩,
            ⟨"bbbbbbbbbbbbbbbbbbbbbbbb", "guest@x.com", none, none, [], []⟩],
           [⟨"aaaaaaaaaaaaaaaaaaaaaaaa", "bbbbbbbbbbbbbbbbbbbbbbbb", GStatus.pending,
             some "INV-AAAA-BBBB", some 1, some 1⟩]⟩).2) :=
  claim_C4_amended _ "bbbbbbbbbbbbbbbbbbbbbbbb" "INV-AAAA-BBBB" 2 3
    "grant_aaaaaaaaaaaaaaaaaaaaaaaa_bbbbbbbbbbbbbbbbbbbbbbbb_2"
    (by decide) (by decide) (by decide) (by decide)

/-- Claim C9: the Ledger resolution path of `/lobby/accept` matches on the
invite code alone — when some owner holds a pending invite with code `k`
addressed to email `inv.email`, an authenticated caller `c` whose account
email differs from it still succeeds, and the owner's ledger gains an active
entry whose guest snapshot is `c`'s account. -/
theorem claim_C9_ledger_ignores_email (s : DBState) (c k : String) (n : Nat) (u o : User)
    (inv : Invite) (hk : k ≠ "")
    (hGuest : s.users.find? (fun v => some v.id == objId c) = some u)
    (hOwner : s.users.find? (hasPendingInvite k) = some o)
    (_hInv : inv ∈ o.invites) (_hCode : inv.inviteCode = k)
    (_hPend : inv.status = GStatus.pending)
    (_hEmail : u.email ≠ inv.email) :
    (lobbyAccept c k n s).1 = .ok (mkGrantId o.id u.id n) ∧
    ∃ o2 ∈ (lobbyAccept c k n s).2.users, o2.id = o.id ∧
      mkGrantedEntry (mkGrantId o.id u.id n) u n ∈ o2.granted := by
  have hro : acceptResolveOwner k u s = some o := by
    unfold acceptResolveOwner
    rw [hOwner]
  have hres : lobbyAccept c k n s =
      (.ok (mkGrantId o.id u.id n),
        ⟨updateUser o.id
            (fun w => { w with
              granted := w.granted ++ [mkGrantedEntry (mkGrantId o.id u.id n) u n] })
            (updateUser o.id
              (fun w => { w with invites := w.invites.filter fun i => !(i.inviteCode == k) })
              s.users),
          upsertActiveGrant o.id u.id n s.grants⟩) := by
    simp [lobbyAccept, hk, hGuest, hro]
  rw [hres]
  refine ⟨rfl, ?_⟩
  have hoMem : o ∈ s.users := List.mem_of_find?_eq_some hOwner
  rcases @exists_mem_updateUser o.id
      (fun w => { w with invites := w.invites.filter fun i => !(i.inviteCode == k) })
      (fun x => rfl) s.users o hoMem with ⟨w1, hw1, hw1id, _⟩
  rcases updated_mem_updateUser o.id
      (fun w => { w with
        granted := w.granted ++ [mkGrantedEntry (mkGrantId o.id u.id n) u n] })
      ⟨w1, hw1, hw1id⟩ with ⟨w, _, hwid, hwmem⟩
  refine ⟨_, hwmem, hwid, ?_⟩
  exact List.mem_append_right _ (List.mem_singleton.mpr rfl)

/-- Witness for C9: the owner's pending invite is addressed to
`guest@x.com`, but the caller's account email is `other@x.com`; accept still
succeeds on the code and installs the caller as the active guest. -/
theorem claim_C9_witness :
    (lobbyAccept "bbbbbbbbbbbbbbbbbbbbbbbb" "INV-AAAA-BBBB" 2
        ⟨[⟨"aaaaaaaaaaaaaaaaaaaaaaaa", "owner@x.com", none, none,
            [⟨"guest@x.com", "INV-AAAA-BBBB", GStatus.pending, 1⟩], []⟩,
          ⟨"bbbbbbbbbbbbbbbbbbbbbbbb", "other@x.com", none, none, [], []⟩],
         []⟩).1
      = .ok (mkGrantId "aaaaaaaaaaaaaaaaaaaaaaaa" "bbbbbbbbbbbbbbbbbbbbbbbb" 2) ∧
    ∃ o2 ∈ (lobbyAccept "bbbbbbbbbbbbbbbbbbbbbbbb" "INV-AAAA-BBBB" 2
        ⟨[⟨"aaaaaaaaaaaaaaaaaaaaaaaa", "owner@x.com", none, none,
            [⟨"guest@x.com", "INV-AAAA-BBBB", GStatus.pending, 1⟩], []⟩,
          ⟨"bbbbbbbbbbbbbbbbbbbbbbbb", "other@x.com", none, none, [], []⟩],
         []⟩).2.users, o2.id = "aaaaaaaaaaaaaaaaaaaaaaaa" ∧
      mkGrantedEntry (mkGrantId "aaaaaaaaaaaaaaaaaaaaaaaa" "bbbbbbbbbbbbbbbbbbbbbbbb" 2)
        ⟨"bbbbbbbbbbbbbbbbbbbbbbbb", "other@x.com", none, none, [], []⟩ 2 ∈ o2.granted :=
  claim_C9_ledger_ignores_email _ "bbbbbbbbbbbbbbbbbbbbbbbb" "INV-AAAA-BBBB" 2
    ⟨"bbbbbbbbbbbbbbbbbbbbbbbb", "other@x.com", none, none, [], []⟩
    ⟨"aaaaaaaaaaaaaaaaaaaaaaaa", "owner@x.com", none, none,
      [⟨"guest@x.com", "INV-AAAA-BBBB", GStatus.pending, 1⟩], []⟩
    ⟨"guest@x.com", "INV-AAAA-BBBB", GStatus.pending, 1⟩
    (by decide) (by decide) (by decide) (by decide) (by decide) (by decide) (by decide)

/-- Claim C5: for a fallback code `GRANT-<osRaw>-<gsRaw>` with no matching
ledger invite, (a) a successful accept forces the decoded guest id to equal
the caller's account id and a pending grants document for the decoded pair
to exist, and (b) when the decoded guest id differs from the caller's
account id, accept returns the `invite_not_found` error and the state is
unchanged. -/
theorem claim_C5_grant_fallback (s : DBState) (c osRaw gsRaw k : String) (n : Nat) (u : User)
    (hk : k ≠ "")
    (hPre : jsStartsWith "GRANT-" k = true)
    (hSplit : jsSplitMinus k = ["GRANT", osRaw, gsRaw])
    (hNoLedger : ∀ w ∈ s.users, hasPendingInvite k w = false)
    (hGuest : s.users.find? (fun v => some v.id == objId c) = some u) :
    (∀ gid, (lobbyAccept c k n s).1 = .ok gid →
      objId gsRaw = some u.id ∧
      ∃ oid, objId osRaw = some oid ∧
        (s.grants.any fun g =>
          g.ownerId == oid && g.guestId == u.id && g.status == GStatus.pending) = true) ∧
    (objId gsRaw ≠ some u.id → lobbyAccept c k n s = (.error .inviteNotFound, s)) := by
  have hl : s.users.find? (hasPendingInvite k) = none := by
    rw [List.find?_eq_none]
    intro w hw
    simp [hNoLedger w hw]
  have hstep : acceptResolveOwner k u s =
      (match objId osRaw, objId gsRaw with
       | some oid, some gid2 =>
         if gid2 == u.id then
           match s.grants.find? (fun g =>
               g.ownerId == oid && g.guestId == gid2 && g.status == GStatus.pending) with
           | some _ => s.users.find? (fun w => w.id == oid)
           | none => none
         else none
       | _, _ => none) := by
    unfold acceptResolveOwner
    rw [hl]
    simp only [hPre, if_true, hSplit]
  constructor
  · intro gid hok
    cases hos : objId osRaw with
    | none =>
      have hnone : acceptResolveOwner k u s = none := by
        rw [hstep, hos]
      simp [lobbyAccept, hk, hGuest, hnone] at hok
    | some oid =>
    cases hgs : objId gsRaw with
    | none =>
      have hnone : acceptResolveOwner k u s = none := by
        rw [hstep, hos, hgs]
      simp [lobbyAccept, hk, hGuest, hnone] at hok
    | some gid2 =>
    by_cases hid : gid2 = u.id
    · cases hfg : s.grants.find? (fun g =>
          g.ownerId == oid && g.guestId == gid2 && g.status == GStatus.pending) with
      | none =>
        have hnone : acceptResolveOwner k u s = none := by
          rw [hstep, hos, hgs]
          rw [hid] at hfg
          simp [hid, hfg]
        simp [lobbyAccept, hk, hGuest, hnone] at hok
      | some g =>
        refine ⟨by rw [hid], oid, rfl, ?_⟩
        rw [List.any_eq_true]
        refine ⟨g, List.mem_of_find?_eq_some hfg, ?_⟩
        have hpg := List.find?_some hfg
        rw [hid] at hpg
        exact hpg
    · have hnone : acceptResolveOwner k u s = none := by
        rw [hstep, hos, hgs]
        simp [hid]
      simp [lobbyAccept, hk, hGuest, hnone] at hok
  · intro hne
    have hnone : acceptResolveOwner k u s = none := by
      rw [hstep]
      cases hos : objId osRaw with
      | none => simp
      | some oid =>
      cases hgs : objId gsRaw with
      | none => simp
      | some gid2 =>
      have hid : gid2 ≠ u.id := by
        intro h2
        apply hne
        rw [hgs, h2]
      simp [hid]
    simp [lobbyAccept, hk, hGuest, hnone]

/-- Witness for C5: a third account tries to accept a fallback code decoding
to another guest's id; the state holds the pending pair, yet accept answers
`invite_not_found` and writes nothing — and, on the success side, the first
conjunct instantiated at the failed call is vacuous. -/
theorem claim_C5_witness :
    lobbyAccept "cccccccccccccccccccccccc"
        "GRANT-aaaaaaaaaaaaaaaaaaaaaaaa-bbbbbbbbbbbbbbbbbbbbbbbb" 2
        ⟨[⟨"aaaaaaaaaaaaaaaaaaaaaaaa", "owner@x.com", none, none, [], []⟩,
          ⟨"bbbbbbbbbbbbbbbbbbbbbbbb", "guest@x.com", none, none, [], []⟩,
          ⟨"cccccccccccccccccccccccc", "third@x.com", none, none, [], []⟩],
         [⟨"aaaaaaaaaaaaaaaaaaaaaaaa", "bbbbbbbbbbbbbbbbbbbbbbbb", GStatus.pending, none,
           some 1, some 1⟩]⟩
      = (.error .inviteNotFound,
         ⟨[⟨"aaaaaaaaaaaaaaaaaaaaaaaa", "owner@x.com", none, none, [], []⟩,
           ⟨"bbbbbbbbbbbbbbbbbbbbbbbb", "guest@x.com", none, none, [], []⟩,
           ⟨"cccccccccccccccccccccccc", "third@x.com", none, none, [], []⟩],
          [⟨"aaaaaaaaaaaaaaaaaaaaaaaa", "bbbbbbbbbbbbbbbbbbbbbbbb", GStatus.pending, none,
            some 1, some 1⟩]⟩) :=
  (claim_C5_grant_fallback _ "cccccccccccccccccccccccc"
      "aaaaaaaaaaaaaaaaaaaaaaaa" "bbbbbbbbbbbbbbbbbbbbbbbb"
      "GRANT-aaaaaaaaaaaaaaaaaaaaaaaa-bbbbbbbbbbbbbbbbbbbbbbbb" 2
      ⟨"cccccccccccccccccccccccc", "third@x.com", none, none, [], []⟩
      (by decide) (by decide) (by decide) (by decide) (by decide)).2 (by decide)

end VirtualMe
